import Mathlib

/-!
# Verification of the smart-log-analyzer core pipeline

Shallow embedding of the log ingestion and analysis core:

* `src/app/log_parser.py`        — `LogParser` (level/timestamp detection, line and file parsing)
* `src/app/pattern_detection.py` — `detect_patterns`, `extract_patterns`,
  `group_similar_errors`, `calculate_similarity`
* `src/app/analyzer.py`          — `LogAnalyzer.analyze`
* `src/app/ml/anomaly_detection.py` — `AnomalyDetector.detect_anomalies`,
  `get_anomaly_summary` (the sklearn isolation-forest pipeline itself is
  floating-point and is abstracted as a parameter; only the surrounding
  control flow is embedded).

Strings are modelled over their character lists; the character classes
(whitespace, word characters, case folding) are modelled at ASCII fidelity,
which covers every concrete input appearing in the theorems below.
Python floats are modelled as rationals (`ℚ`); the similarity arithmetic of
the source only involves small exact fractions, so no rounding artifacts
are hidden by this choice.
-/

namespace LogAnalyzer

/-! ## Python string primitives (ASCII model) -/

/-- Python `str.strip()` / `str.split()` whitespace set, ASCII part:
space, tab, newline, carriage return, vertical tab, form feed. -/
def isPySpace (c : Char) : Bool :=
  c = ' ' || c = '\t' || c = '\n' || c = '\x0d' || c = '\x0b' || c = '\x0c'

/-- Python regex `\w` (word character), ASCII part: letters, digits, underscore. -/
def isWordChar (c : Char) : Bool :=
  c.isAlpha || c.isDigit || c = '_'

/-- Python `str.strip()` on a character list. -/
def pyStrip (s : List Char) : List Char :=
  ((s.dropWhile isPySpace).reverse.dropWhile isPySpace).reverse

/-- Python `str.strip()` on a `String`. -/
def pyStripStr (s : String) : String :=
  String.mk (pyStrip s.data)

/-- Python `str.lower()`, ASCII case folding. -/
def pyLower (s : List Char) : List Char :=
  s.map Char.toLower

/-- Python `str.upper()`, ASCII case folding. -/
def pyUpper (s : List Char) : List Char :=
  s.map Char.toUpper

/-- Python `str.split()` with no argument: split on runs of whitespace,
producing no empty fields.  `acc` is the word currently being read,
in reverse character order. -/
def pySplitAux : List Char → List Char → List (List Char)
  | [], [] => []
  | [], acc => [acc.reverse]
  | c :: cs, acc =>
    if isPySpace c then
      match acc with
      | [] => pySplitAux cs []
      | _ => acc.reverse :: pySplitAux cs []
    else pySplitAux cs (c :: acc)

/-- Python `str.split()` with no argument. -/
def pySplit (s : List Char) : List (List Char) :=
  pySplitAux s []

/-- Python `" ".join(s.split())`: collapse whitespace runs to single
spaces and trim. -/
def collapseWs (s : List Char) : List Char :=
  (List.intersperse [' '] (pySplit s)).flatten

/-- `collapseWs` on a `String`. -/
def collapseWsStr (s : String) : String :=
  String.mk (collapseWs s.data)

/-! ## difflib.SequenceMatcher (no junk: autojunk only engages for
strings of length ≥ 200, and every string fed to it by the similarity
metric in the theorems below is far shorter) -/

/-- Length of the longest common prefix of two character lists. -/
def lcp : List Char → List Char → Nat
  | a :: as, b :: bs => if a = b then lcp as bs + 1 else 0
  | _, _ => 0

/-- `SequenceMatcher.find_longest_match` over the whole of `a` and `b`:
the triple `(i, j, k)` of the longest block with `a[i:i+k] = b[j:j+k]`,
ties resolved towards the lowest `i`, then the lowest `j` (the documented
behaviour with an empty junk set).  Realised as a scan that only replaces
the current best on a strictly longer block. -/
def findLongestMatch (a b : List Char) : Nat × Nat × Nat :=
  (List.range a.length).foldl
    (fun best i =>
      (List.range b.length).foldl
        (fun best j =>
          let k := lcp (a.drop i) (b.drop j)
          if best.2.2 < k then (i, j, k) else best)
        best)
    (0, 0, 0)

/-- Total size of all matching blocks (`sum of k over get_matching_blocks`),
computed by the documented recursion: take the longest match, then recurse
on the pieces to its left and to its right.  The fuel argument strictly
bounds the recursion depth (each recursive call loses at least one
character from `a.length + b.length`) and is never exhausted when the
function is entered through `matchTotal`. -/
def matchTotalAux : Nat → List Char → List Char → Nat
  | 0, _, _ => 0
  | fuel + 1, a, b =>
    let m := findLongestMatch a b
    if m.2.2 = 0 then 0
    else
      matchTotalAux fuel (a.take m.1) (b.take m.2.1) + m.2.2 +
        matchTotalAux fuel (a.drop (m.1 + m.2.2)) (b.drop (m.2.1 + m.2.2))

/-- Total matched characters of `SequenceMatcher(None, a, b)`. -/
def matchTotal (a b : List Char) : Nat :=
  matchTotalAux (a.length + b.length + 1) a b

/-- `SequenceMatcher(None, a, b).ratio()`: `2*M / (len(a)+len(b))`,
and `1` when both strings are empty (as in `difflib._calculate_ratio`). -/
def sequenceRatio (a b : List Char) : ℚ :=
  if a.length + b.length = 0 then 1
  else mkRat (2 * matchTotal a b) (a.length + b.length)

/-! ## pattern_detection.calculate_similarity -/

/-- `calculate_similarity(str1, str2)` from `src/app/pattern_detection.py`:
`0.4 * Jaccard(word sets) + 0.6 * SequenceMatcher ratio`, with guards
returning `0` for an empty string or an empty word set.  The weighted sum
is assembled as a single `mkRat` over the common denominator
`5 * union * L` (the sealed `Rat` addition and multiplication do not
reduce inside the kernel); `calculate_similarity_formula` below proves
this equal to the textbook form `jaccard * (2/5) + ratio * (3/5)`. -/
def calculate_similarity (str1 str2 : List Char) : ℚ :=
  if str1 = [] ∨ str2 = [] then 0
  else
    let words1 := (pySplit str1).dedup
    let words2 := (pySplit str2).dedup
    if words1 = [] ∨ words2 = [] then 0
    else
      let inter := (words1.filter (fun w => words2.contains w)).length
      let union := (words1 ++ words2.filter (fun w => !words1.contains w)).length
      let m := matchTotal str1 str2
      let len := str1.length + str2.length
      mkRat (2 * inter * len + 6 * m * union) (5 * union * len)

/-! ## Log entries (the dicts produced by `LogParser.parse_line`) -/

/-- A Python `datetime` restricted to the fields the core reads. -/
structure PyDateTime where
  year : Nat
  month : Nat
  day : Nat
  hour : Nat
  minute : Nat
  second : Nat
deriving DecidableEq, Repr

/-- The dict produced per line by `LogParser.parse_line`.
`log_level` is `none` when no level pattern matched (Python `None`). -/
structure LogEntry where
  line_number : Nat
  log_level : Option String
  timestamp : Option PyDateTime
  message : String
  raw_line : String
deriving DecidableEq, Repr

/-! ## pattern_detection.group_similar_errors -/

/-- One group dict built by `group_similar_errors`.  `members` keeps each
member entry together with its position in the input list (the Python dict
stores only the entries; the scan position is carried alongside so that
the specification can speak about it). -/
structure SimGroup where
  id : Nat
  representative : String
  count : Nat
  log_level : Option String
  members : List (Nat × LogEntry)
  similarity_score : ℚ
deriving DecidableEq, Repr

/-- Index of the seed entry of a group (head of the member list). -/
def SimGroup.seedIdx (g : SimGroup) : Nat :=
  match g.members with
  | [] => 0
  | (i, _) :: _ => i

/-- The inner candidate scan of `group_similar_errors`: for each later
entry `(j, entry2)` not yet processed and with a non-empty lower-cased
message, add it to the group and mark it processed when
`calculate_similarity ≥ min_similarity`. -/
def innerScan (minSim : ℚ) (message1 : List Char) :
    List (Nat × LogEntry) → SimGroup → List Nat → SimGroup × List Nat
  | [], g, proc => (g, proc)
  | (j, entry2) :: rest, g, proc =>
    if j ∈ proc then innerScan minSim message1 rest g proc
    else
      let message2 := pyLower entry2.message.data
      if message2 = [] then innerScan minSim message1 rest g proc
      else if minSim ≤ calculate_similarity message1 message2 then
        innerScan minSim message1 rest
          { g with count := g.count + 1, members := g.members ++ [(j, entry2)] }
          (j :: proc)
      else innerScan minSim message1 rest g proc

/-- The outer seed scan of `group_similar_errors`: entries are visited in
order; a seed already processed or with an empty message is skipped;
otherwise the inner scan runs over the later entries, and the group is
kept (and the seed marked processed) only when it gathered at least two
members. -/
def outerScan (minSim : ℚ) :
    List (Nat × LogEntry) → List SimGroup → List Nat → List SimGroup × List Nat
  | [], groups, proc => (groups, proc)
  | (i, entry1) :: rest, groups, proc =>
    if i ∈ proc then outerScan minSim rest groups proc
    else
      let message1 := pyLower entry1.message.data
      if message1 = [] then outerScan minSim rest groups proc
      else
        let g0 : SimGroup :=
          { id := groups.length + 1
            representative := entry1.message.take 100
            count := 1
            log_level := entry1.log_level
            members := [(i, entry1)]
            similarity_score := mkRat 1 1 }
        let r := innerScan minSim message1 rest g0 proc
        if 1 < r.1.count then outerScan minSim rest (groups ++ [r.1]) (i :: r.2)
        else outerScan minSim rest groups r.2

/-- Stable insertion (descending by `count`) used to model Python's stable
`groups.sort(key=lambda x: x["count"], reverse=True)`: an element is
inserted in front of the first element with a count less than or equal to
its own, so earlier-listed groups stay in front of equal-count groups. -/
def insertByCountDesc (g : SimGroup) : List SimGroup → List SimGroup
  | [] => [g]
  | h :: t => if h.count ≤ g.count then g :: h :: t else h :: insertByCountDesc g t

/-- Stable sort, descending by `count`. -/
def sortByCountDesc : List SimGroup → List SimGroup
  | [] => []
  | g :: t => insertByCountDesc g (sortByCountDesc t)

/-- Pair each entry with its position, as Python `enumerate`. -/
def enumEntries (entries : List LogEntry) : List (Nat × LogEntry) :=
  entries.enum

/-- `group_similar_errors(log_entries, min_similarity)` from
`src/app/pattern_detection.py`: greedy single-pass clustering, groups
sorted by descending count, truncated to 20. -/
def group_similar_errors (log_entries : List LogEntry) (min_similarity : ℚ) :
    List SimGroup :=
  if log_entries = [] then []
  else
    let r := outerScan min_similarity (enumEntries log_entries) [] []
    (sortByCountDesc r.1).take 20

/-- Total number of entries assigned to similarity groups. -/
def totalGrouped (log_entries : List LogEntry) (min_similarity : ℚ) : Nat :=
  ((group_similar_errors log_entries min_similarity).map SimGroup.count).sum

/-! ## LogParser: timestamp shapes

The four `TIMESTAMP_PATTERNS` regexes of `src/app/log_parser.py` are
fixed-length sequences of digit classes and literal characters, modelled
as token lists. -/

/-- One token of a timestamp regex: `\d` or a literal character. -/
inductive ShapeTok where
  | digit
  | lit (c : Char)
deriving DecidableEq, Repr

/-- Does a shape token accept a character? -/
def tokMatches : ShapeTok → Char → Bool
  | .digit, c => c.isDigit
  | .lit l, c => l = c

/-- Does the shape match a prefix of `s`? -/
def matchShape : List ShapeTok → List Char → Bool
  | [], _ => true
  | _ :: _, [] => false
  | t :: ts, c :: cs => tokMatches t c && matchShape ts cs

/-- `re.search`: leftmost match of the (fixed-length) shape, returning the
matched substring. -/
def searchShape (p : List ShapeTok) : List Char → Option (List Char)
  | [] => if matchShape p [] then some [] else none
  | c :: cs =>
    if matchShape p (c :: cs) then some ((c :: cs).take p.length)
    else searchShape p cs

/-- `re.sub(p, "", s)` for a fixed-length shape with no anchors: remove
every non-overlapping leftmost match.  The counter skips over the
remaining characters of a match already committed to. -/
def subShapeAux (p : List ShapeTok) : Nat → List Char → List Char
  | _, [] => []
  | skip + 1, _ :: cs => subShapeAux p skip cs
  | 0, c :: cs =>
    if p ≠ [] && matchShape p (c :: cs) then subShapeAux p (p.length - 1) cs
    else c :: subShapeAux p 0 cs

/-- Remove every match of a shape (`re.sub` with empty replacement). -/
def subShapeAll (p : List ShapeTok) (s : List Char) : List Char :=
  subShapeAux p 0 s

/-- Remove only the first match of a shape (used to state the claim that
message derivation removes first occurrences). -/
def subShapeFirst (p : List ShapeTok) : List Char → List Char
  | [] => []
  | c :: cs =>
    if p ≠ [] && matchShape p (c :: cs) then cs.drop (p.length - 1)
    else c :: subShapeFirst p cs

/-- `\d{2}` -/
def d2 : List ShapeTok := [.digit, .digit]

/-- `\d{4}` -/
def d4 : List ShapeTok := d2 ++ d2

/-- `\d{2}:\d{2}:\d{2}` -/
def hmsShape : List ShapeTok := d2 ++ [.lit ':'] ++ d2 ++ [.lit ':'] ++ d2

/-- `\d{4}-\d{2}-\d{2} \d{2}:\d{2}:\d{2}` -/
def shapeYmdHMS : List ShapeTok :=
  d4 ++ [.lit '-'] ++ d2 ++ [.lit '-'] ++ d2 ++ [.lit ' '] ++ hmsShape

/-- `\d{4}-\d{2}-\d{2}T\d{2}:\d{2}:\d{2}` -/
def shapeYmdTHMS : List ShapeTok :=
  d4 ++ [.lit '-'] ++ d2 ++ [.lit '-'] ++ d2 ++ [.lit 'T'] ++ hmsShape

/-- `\d{2}/\d{2}/\d{4} \d{2}:\d{2}:\d{2}` -/
def shapeDmyHMS : List ShapeTok :=
  d2 ++ [.lit '/'] ++ d2 ++ [.lit '/'] ++ d4 ++ [.lit ' '] ++ hmsShape

/-- `\[\d{4}-\d{2}-\d{2} \d{2}:\d{2}:\d{2}\]` -/
def shapeBracketed : List ShapeTok :=
  [.lit '['] ++ shapeYmdHMS ++ [.lit ']']

/-- `LogParser.TIMESTAMP_PATTERNS`, in source order. -/
def TIMESTAMP_PATTERNS : List (List ShapeTok) :=
  [shapeYmdHMS, shapeYmdTHMS, shapeDmyHMS, shapeBracketed]

/-! ## LogParser: strptime model

The matched substrings handed to `datetime.strptime` always come from one
of the shapes above, so every numeric field arrives as an exact 2- or
4-digit run followed by the format's separator.  On such inputs
`strptime` succeeds exactly when each field is in range and the date is a
valid calendar date, which is what the parsers below check. -/

/-- Numeric value of a decimal digit character. -/
def digitVal (c : Char) : Nat := c.toNat - 48

/-- Read exactly `n` decimal digits, returning their value and the rest. -/
def readDigits : Nat → Nat → List Char → Option (Nat × List Char)
  | 0, acc, s => some (acc, s)
  | n + 1, acc, c :: s =>
    if c.isDigit then readDigits n (acc * 10 + digitVal c) s else none
  | _ + 1, _, [] => none

/-- Expect a literal character. -/
def expectChar (c : Char) : List Char → Option (List Char)
  | d :: s => if d = c then some s else none
  | [] => none

/-- Gregorian leap year (as `calendar.isleap` / `datetime`). -/
def isLeap (y : Nat) : Bool :=
  (y % 4 = 0 && y % 100 ≠ 0) || y % 400 = 0

/-- Days in a month, Gregorian calendar. -/
def daysInMonth (y m : Nat) : Nat :=
  if m = 2 then (if isLeap y then 29 else 28)
  else if m = 4 ∨ m = 6 ∨ m = 9 ∨ m = 11 then 30
  else 31

/-- `datetime(...)` field validation: `MINYEAR ≤ year ≤ MAXYEAR`, month,
day-of-month, and clock fields in range. -/
def mkDateTime (y mo d h mi s : Nat) : Option PyDateTime :=
  if 1 ≤ y ∧ y ≤ 9999 ∧ 1 ≤ mo ∧ mo ≤ 12 ∧ 1 ≤ d ∧ d ≤ daysInMonth y mo ∧
      h ≤ 23 ∧ mi ≤ 59 ∧ s ≤ 59 then
    some ⟨y, mo, d, h, mi, s⟩
  else none

/-- `datetime.strptime(s, "%H:%M:%S")` tail shared by the three formats. -/
def parseHMS (y mo d : Nat) (s : List Char) : Option PyDateTime := do
  let (h, s) ← readDigits 2 0 s
  let s ← expectChar ':' s
  let (mi, s) ← readDigits 2 0 s
  let s ← expectChar ':' s
  let (se, s) ← readDigits 2 0 s
  if s = [] then mkDateTime y mo d h mi se else none

/-- `datetime.strptime(s, "%Y-%m-%d %H:%M:%S")`. -/
def strptimeYmdHMS (s : List Char) : Option PyDateTime := do
  let (y, s) ← readDigits 4 0 s
  let s ← expectChar '-' s
  let (mo, s) ← readDigits 2 0 s
  let s ← expectChar '-' s
  let (d, s) ← readDigits 2 0 s
  let s ← expectChar ' ' s
  parseHMS y mo d s

/-- `datetime.strptime(s, "%Y-%m-%dT%H:%M:%S")`. -/
def strptimeYmdTHMS (s : List Char) : Option PyDateTime := do
  let (y, s) ← readDigits 4 0 s
  let s ← expectChar '-' s
  let (mo, s) ← readDigits 2 0 s
  let s ← expectChar '-' s
  let (d, s) ← readDigits 2 0 s
  let s ← expectChar 'T' s
  parseHMS y mo d s

/-- `datetime.strptime(s, "%d/%m/%Y %H:%M:%S")`. -/
def strptimeDmyHMS (s : List Char) : Option PyDateTime := do
  let (d, s) ← readDigits 2 0 s
  let s ← expectChar '/' s
  let (mo, s) ← readDigits 2 0 s
  let s ← expectChar '/' s
  let (y, s) ← readDigits 4 0 s
  let s ← expectChar ' ' s
  parseHMS y mo d s

/-- The inner loop of `extract_timestamp`: try the three formats in order
on the matched (bracket-stripped) substring; `ValueError`s are swallowed
and the next format is tried. -/
def tryTimestampFormats (s : List Char) : Option PyDateTime :=
  match strptimeYmdHMS s with
  | some dt => some dt
  | none =>
    match strptimeYmdTHMS s with
    | some dt => some dt
    | none => strptimeDmyHMS s

/-- `match.group().strip("[]")`: strip `[` and `]` from both ends. -/
def stripSquare (s : List Char) : List Char :=
  let isBr : Char → Bool := fun c => c = '[' || c = ']'
  ((s.dropWhile isBr).reverse.dropWhile isBr).reverse

/-- `LogParser.extract_timestamp`, as the code behaves: shapes are tried
in order; when a shape's regex matches somewhere in the line the matched
substring is parsed with the three formats, and if every format raises
`ValueError` control falls out of the `try` block and the loop continues
with the next shape (only a non-`ValueError` error would return early;
no such error can arise from these inputs). -/
def extractTimestampAux (line : List Char) : List (List ShapeTok) → Option PyDateTime
  | [] => none
  | p :: rest =>
    match searchShape p line with
    | none => extractTimestampAux line rest
    | some sub =>
      match tryTimestampFormats (stripSquare sub) with
      | some dt => some dt
      | none => extractTimestampAux line rest

/-- `LogParser.extract_timestamp` on a `String`. -/
def extract_timestamp (line : String) : Option PyDateTime :=
  extractTimestampAux line.data TIMESTAMP_PATTERNS

/-! ## LogParser: level detection -/

/-- Case-insensitive prefix match, returning the rest of the string. -/
def dropCaseFoldPfx : List Char → List Char → Option (List Char)
  | [], s => some s
  | _ :: _, [] => none
  | w :: ws, c :: cs =>
    if w.toLower = c.toLower then dropCaseFoldPfx ws cs else none

/-- Does the word `w` match at the head of `s`, with a word boundary
after it?  (The boundary before it is checked by the caller.) -/
def matchWordAt (w s : List Char) : Bool :=
  match dropCaseFoldPfx w s with
  | some [] => true
  | some (r :: _) => !isWordChar r
  | none => false

/-- Scan for a `\bw\b` match (case-insensitive), tracking whether the
previous character was a word character. -/
def containsWordAux (w : List Char) : Bool → List Char → Bool
  | _, [] => false
  | prevWord, c :: cs =>
    (!prevWord && matchWordAt w (c :: cs)) || containsWordAux w (isWordChar c) cs

/-- `pattern.search(line)` for a compiled `re.compile(r"\bWORD\b", re.IGNORECASE)`. -/
def containsWordCI (w : String) (s : List Char) : Bool :=
  containsWordAux w.data false s

/-- `LogParser.LOG_LEVEL_PATTERNS`.  Every pattern is `\bWORD\b` compiled
with `re.IGNORECASE`, so each is modelled by its word; the character class
of `r"\b[Ee]rror\b"` is subsumed by the case-insensitive flag. -/
def LOG_LEVEL_PATTERNS : List (String × List String) :=
  [("ERROR", ["ERROR", "Error", "Error", "FATAL", "CRITICAL", "Exception"]),
   ("WARNING", ["WARNING", "Warning", "WARN", "Warn"]),
   ("INFO", ["INFO", "Info", "INFORMATION"]),
   ("DEBUG", ["DEBUG", "Debug"])]

/-- The compiled pattern list of one level. -/
def levelPatterns (lvl : String) : List String :=
  ((LOG_LEVEL_PATTERNS.find? (fun p => p.1 == lvl)).map Prod.snd).getD []

/-- `LogParser.detect_log_level`: levels in fixed priority order, first
level with a matching pattern wins. -/
def detectLevelAux (line : List Char) : List String → Option String
  | [] => none
  | lvl :: rest =>
    if (levelPatterns lvl).any (fun w => containsWordCI w line) then some lvl
    else detectLevelAux line rest

/-- `LogParser.detect_log_level` on a `String`. -/
def detect_log_level (line : String) : Option String :=
  detectLevelAux line.data ["ERROR", "WARNING", "INFO", "DEBUG"]

/-! ## LogParser: message stripping -/

/-- `pattern.sub("", s)` for `\bWORD\b` with `re.IGNORECASE`: remove every
non-overlapping leftmost word-bounded match, boundaries evaluated on the
original string. -/
def subWordAux (w : List Char) : Nat → Bool → List Char → List Char
  | _, _, [] => []
  | skip + 1, _, c :: cs => subWordAux w skip (isWordChar c) cs
  | 0, prevWord, c :: cs =>
    if w ≠ [] && !prevWord && matchWordAt w (c :: cs) then
      subWordAux w (w.length - 1) (isWordChar c) cs
    else c :: subWordAux w 0 (isWordChar c) cs

/-- Remove every word-bounded case-insensitive occurrence of `w`. -/
def subWordAll (w : String) (s : List Char) : List Char :=
  subWordAux w.data 0 false s

/-- Remove only the first word-bounded case-insensitive occurrence of `w`
(used to state the first-occurrence claim). -/
def subWordFirstAux (w : List Char) : Bool → List Char → List Char
  | _, [] => []
  | prevWord, c :: cs =>
    if w ≠ [] && !prevWord && matchWordAt w (c :: cs) then cs.drop (w.length - 1)
    else c :: subWordFirstAux w (isWordChar c) cs

/-- Remove the first word-bounded case-insensitive occurrence of `w`. -/
def subWordFirst (w : String) (s : List Char) : List Char :=
  subWordFirstAux w.data false s

/-! ## LogParser: parse_line / parse_file -/

/-- `LogParser.parse_line(line, line_number)`: strip the line, return
`None` when empty, otherwise detect level and timestamp and derive the
cleaned message exactly as the source does — `re.sub` removes every
occurrence of each timestamp shape (when a timestamp parsed) and of each
pattern of the detected level, stripping after each substitution, then
whitespace is collapsed, and an emptied message falls back to the
stripped line. -/
def parse_line (line : String) (line_number : Nat) : Option LogEntry :=
  let stripped := pyStrip line.data
  if stripped = [] then none
  else
    let lineS : String := String.mk stripped
    let log_level := detect_log_level lineS
    let timestamp := extract_timestamp lineS
    let msg0 := stripped
    let msg1 :=
      if timestamp.isSome then
        TIMESTAMP_PATTERNS.foldl (fun m p => pyStrip (subShapeAll p m)) msg0
      else msg0
    let msg2 :=
      match log_level with
      | some lvl => (levelPatterns lvl).foldl (fun m w => pyStrip (subWordAll w m)) msg1
      | none => msg1
    let msg3 := collapseWs msg2
    some
      { line_number := line_number
        log_level := log_level
        timestamp := timestamp
        message := if msg3 = [] then lineS else String.mk msg3
        raw_line := lineS }

/-- The loop of `LogParser.parse_file`: `enumerate(lines, start=1)` with
`None` results dropped. -/
def parseFileAux : List String → Nat → List LogEntry
  | [], _ => []
  | l :: ls, i =>
    match parse_line l i with
    | some e => e :: parseFileAux ls (i + 1)
    | none => parseFileAux ls (i + 1)

/-- Python `file_content.split("\n")`: split at every newline, keeping
empty fields (the accumulator holds the current field reversed). -/
def splitLinesAux : List Char → List Char → List String
  | [], acc => [String.mk acc.reverse]
  | c :: cs, acc =>
    if c = '\n' then String.mk acc.reverse :: splitLinesAux cs []
    else splitLinesAux cs (c :: acc)

/-- `file_content.split("\n")`. -/
def splitLines (s : String) : List String :=
  splitLinesAux s.data []

/-- `LogParser.parse_file(file_content)`: split on `"\n"` and parse each
line with its 1-based position. -/
def parse_file (file_content : String) : List LogEntry :=
  parseFileAux (splitLines file_content) 1

/-! ## LogAnalyzer.analyze (src/app/analyzer.py) -/

/-- `collections.Counter` over a list, keys kept in first-seen order. -/
def counterAdd {α : Type} [DecidableEq α] (x : α) :
    List (α × Nat) → List (α × Nat)
  | [] => [(x, 1)]
  | (y, n) :: t => if y = x then (y, n + 1) :: t else (y, n) :: counterAdd x t

/-- Build a `Counter` from a list. -/
def counterList {α : Type} [DecidableEq α] (xs : List α) : List (α × Nat) :=
  xs.foldl (fun acc x => counterAdd x acc) []

/-- Stable insertion, descending by the count component (ties keep the
earlier element in front), modelling the stable sort underlying
`Counter.most_common`. -/
def insertCountDesc {α : Type} (p : α × Nat) :
    List (α × Nat) → List (α × Nat)
  | [] => [p]
  | q :: t => if q.2 ≤ p.2 then p :: q :: t else q :: insertCountDesc p t

/-- Stable sort of counter items, descending by count. -/
def sortCountDesc {α : Type} : List (α × Nat) → List (α × Nat)
  | [] => []
  | p :: t => insertCountDesc p (sortCountDesc t)

/-- `Counter.most_common(n)`: the `n` highest-count items, descending,
ties in first-seen order. -/
def mostCommon {α : Type} (c : List (α × Nat)) (n : Nat) : List (α × Nat) :=
  (sortCountDesc c).take n

/-- Banker's rounding of a rational to an integer (Python `round`
rounds half to even; the float artifacts of CPython's `round(x, 2)` are
outside this model and no theorem below depends on a percentage value). -/
def roundHalfEven (q : ℚ) : ℤ :=
  let f := q.floor
  let r := q - f
  if r < 1 / 2 then f
  else if 1 / 2 < r then f + 1
  else if f % 2 = 0 then f else f + 1

/-- Python `round(q, 2)` over the rational model. -/
def round2 (q : ℚ) : ℚ :=
  (roundHalfEven (q * 100) : ℚ) / 100

/-- One item of `top_errors` / `top_warnings`. -/
structure TopMessage where
  message : String
  count : Nat
  percentage : ℚ
deriving DecidableEq, Repr

/-- The analysis dict produced by `LogAnalyzer.analyze`. -/
structure Analysis where
  total_entries : Nat
  error_count : Nat
  warning_count : Nat
  info_count : Nat
  debug_count : Nat
  top_errors : List TopMessage
  top_warnings : List TopMessage
  time_distribution : List (String × Nat)
deriving DecidableEq, Repr

/-- `LogAnalyzer._get_top_messages`: keep messages that are non-blank,
normalize by lower-case + strip, count, take the top `limit`; the
percentage divides by the length of the *unfiltered* message list. -/
def get_top_messages (messages : List String) (limit : Nat) : List TopMessage :=
  if messages = [] then []
  else
    let normalized := messages.filterMap fun m =>
      if pyStrip m.data = [] then none
      else some (String.mk (pyStrip (pyLower m.data)))
    (mostCommon (counterList normalized) limit).map fun p =>
      { message := p.1
        count := p.2
        percentage := round2 ((p.2 : ℚ) / messages.length * 100) }

/-- `LogAnalyzer._get_time_distribution`: bucket entries that carry a
timestamp by `str(timestamp.hour)`, in first-encounter order.  (The
source's string-timestamp branch cannot arise from `parse_file` output,
whose timestamps are `datetime` values, and is not modelled.) -/
def get_time_distribution (log_entries : List LogEntry) : List (String × Nat) :=
  counterList (log_entries.filterMap fun e => e.timestamp.map fun t => toString t.hour)

/-- `LogAnalyzer._empty_analysis`. -/
def empty_analysis : Analysis :=
  { total_entries := 0
    error_count := 0
    warning_count := 0
    info_count := 0
    debug_count := 0
    top_errors := []
    top_warnings := []
    time_distribution := [] }

/-- `LogAnalyzer.analyze(log_entries)`. -/
def analyze (log_entries : List LogEntry) : Analysis :=
  if log_entries = [] then empty_analysis
  else
    { total_entries := log_entries.length
      error_count := log_entries.countP fun e => e.log_level == some "ERROR"
      warning_count := log_entries.countP fun e => e.log_level == some "WARNING"
      info_count := log_entries.countP fun e => e.log_level == some "INFO"
      debug_count := log_entries.countP fun e => e.log_level == some "DEBUG"
      top_errors := get_top_messages
        ((log_entries.filter fun e => e.log_level == some "ERROR").map LogEntry.message) 10
      top_warnings := get_top_messages
        ((log_entries.filter fun e => e.log_level == some "WARNING").map LogEntry.message) 10
      time_distribution := get_time_distribution log_entries }

/-! ## pattern_detection.extract_patterns -/

/-- Exact (case-sensitive) prefix: returns the rest on success. -/
def dropPfx : List Char → List Char → Option (List Char)
  | [], s => some s
  | _ :: _, [] => none
  | w :: ws, c :: cs => if w = c then dropPfx ws cs else none

/-- Exact prefix test. -/
def startsWithSub (needle hay : List Char) : Bool :=
  (dropPfx needle hay).isSome

/-- Substring containment (Python `in` on strings). -/
def containsSub (needle : List Char) : List Char → Bool
  | [] => needle = []
  | c :: cs => startsWithSub needle (c :: cs) || containsSub needle cs

/-- Was the character before the current position a word character
(`\b` is a transition between word and non-word; start of string counts
as non-word)? -/
def prevIsWord : Option Char → Bool
  | some c => isWordChar c
  | none => false

/-- `re.findall` driver: scan left to right, at each position ask the
matcher for a match (the matcher receives the previous character so it
can evaluate a leading `\b`); on a match of length `len ≥ 1` emit the
capture and resume after the match, otherwise advance one character.
Fuel bounds the number of steps and `length + 1` always suffices. -/
def findallAux {α : Type} (m : Option Char → List Char → Option (α × Nat)) :
    Nat → Option Char → List Char → List α
  | 0, _, _ => []
  | _ + 1, _, [] => []
  | fuel + 1, prev, c :: cs =>
    match m prev (c :: cs) with
    | some (a, len) =>
      a :: findallAux m fuel ((c :: cs).get? (len - 1)) ((c :: cs).drop len)
    | none => findallAux m fuel (some c) cs

/-- `re.findall` over a character list. -/
def findall {α : Type} (m : Option Char → List Char → Option (α × Nat))
    (s : List Char) : List α :=
  findallAux m (s.length + 1) none s

/-- Matcher for `https?://[^\s]+` (no boundary assertions): the greedy
optional `s` is tried first, and the non-space run must be non-empty. -/
def matchUrl (_ : Option Char) (s : List Char) : Option (List Char × Nat) :=
  let tailFrom : List Char → Nat → Option (List Char × Nat) := fun r plen =>
    match dropPfx "://".data r with
    | none => none
    | some r2 =>
      let run := r2.takeWhile fun c => !isPySpace c
      if run = [] then none
      else some (s.take (plen + 3 + run.length), plen + 3 + run.length)
  match dropPfx "http".data s with
  | none => none
  | some r1 =>
    match r1 with
    | 's' :: r1s =>
      match tailFrom r1s 5 with
      | some x => some x
      | none => tailFrom r1 4
    | _ => tailFrom r1 4

/-- `\d{1,3}` followed by a non-digit (the greedy repeat with its
backtracking succeeds exactly when the digit run has length 1–3). -/
def matchOctet (s : List Char) : Option (Nat × List Char) :=
  let r := (s.takeWhile Char.isDigit).length
  if 1 ≤ r ∧ r ≤ 3 then some (r, s.drop r) else none

/-- Matcher for `\b\d{1,3}\.\d{1,3}\.\d{1,3}\.\d{1,3}\b`. -/
def matchIp (prev : Option Char) (s : List Char) : Option (List Char × Nat) :=
  if prevIsWord prev then none
  else do
    let (r1, s1) ← matchOctet s
    let s1 ← expectChar '.' s1
    let (r2, s2) ← matchOctet s1
    let s2 ← expectChar '.' s2
    let (r3, s3) ← matchOctet s2
    let s3 ← expectChar '.' s3
    let (r4, s4) ← matchOctet s3
    match s4 with
    | c :: _ => if isWordChar c then none else some ()
    | [] => some ()
    let len := r1 + r2 + r3 + r4 + 3
    some (s.take len, len)

/-- `(\d{3})\b` at the current position: exactly three digits (a longer
digit run makes the trailing boundary unsatisfiable) not followed by a
word character; returns the numeric value. -/
def threeDigitsBounded (s : List Char) : Option (Nat × Nat) :=
  match s with
  | a :: b :: c :: rest =>
    if a.isDigit && b.isDigit && c.isDigit then
      match rest with
      | d :: _ => if isWordChar d then none
          else some (digitVal a * 100 + digitVal b * 10 + digitVal c, 3)
      | [] => some (digitVal a * 100 + digitVal b * 10 + digitVal c, 3)
    else none
  | _ => none

/-- Matcher for `\b(?:HTTP/\d\.\d\s+)?(\d{3})\b`, returning the captured
status code: the optional prefix is tried first, falling back to the bare
three digits at the same start position. -/
def matchStatus (prev : Option Char) (s : List Char) : Option (Nat × Nat) :=
  if prevIsWord prev then none
  else
    let withPfx : Option (Nat × Nat) := do
      let r1 ← dropPfx "HTTP/".data s
      match r1 with
      | a :: '.' :: b :: r2 =>
        if a.isDigit && b.isDigit then
          let ws := r2.takeWhile isPySpace
          if ws = [] then none
          else do
            let (code, _) ← threeDigitsBounded (r2.drop ws.length)
            some (code, 8 + ws.length + 3)
        else none
      | _ => none
    match withPfx with
    | some x => some x
    | none => (threeDigitsBounded s).map fun p => (p.1, p.2)

/-- `sql_keywords` of `extract_patterns`. -/
def SQL_KEYWORDS : List String :=
  ["SELECT", "INSERT", "UPDATE", "DELETE", "CREATE", "DROP", "ALTER"]

/-- The HTTP verbs of the endpoint regex, in alternation order. -/
def HTTP_VERBS : List String := ["GET", "POST", "PUT", "DELETE", "PATCH"]

/-- Match one of the verbs (first alternative wins), returning its length
and the rest. -/
def matchVerb (s : List Char) : List String → Option (Nat × List Char)
  | [] => none
  | v :: vs =>
    match dropPfx v.data s with
    | some r => some (v.length, r)
    | none => matchVerb s vs

/-- Matcher for `(?:GET|POST|PUT|DELETE|PATCH)\s+([/\w\-]+)` (note: no
word boundary before the verb), returning the captured path token. -/
def matchEndpoint (_ : Option Char) (s : List Char) : Option (String × Nat) := do
  let (vlen, r1) ← matchVerb s HTTP_VERBS
  let ws := r1.takeWhile isPySpace
  if ws = [] then none
  else
    let r2 := r1.drop ws.length
    let tok := r2.takeWhile fun c => isWordChar c || c = '/' || c = '-'
    if tok = [] then none
    else some (String.mk tok, vlen + ws.length + tok.length)

/-- Largest offset `p` with `1 ≤ p ≤ start` at which `suffix` occurs in
`s` (the greedy `\w+` backtracks from the longest prefix). -/
def findSuffixAt (suffix s : List Char) : Nat → Option Nat
  | 0 => none
  | p + 1 =>
    if startsWithSub suffix (s.drop (p + 1)) then some (p + 1)
    else findSuffixAt suffix s p

/-- `\w+S` at the current position for a literal suffix `S` made of word
characters: the whole match ends at the chosen occurrence of `S`. -/
def matchWordSuffix (suffix : String) (s : List Char) : Option Nat :=
  let run := (s.takeWhile isWordChar).length
  if run < suffix.length + 1 then none
  else
    (findSuffixAt suffix.data s (run - suffix.length)).map fun p => p + suffix.length

/-- Matcher for `(\w+Exception|\w+Error|\w+Warning)`, alternatives tried
in order. -/
def matchException (_ : Option Char) (s : List Char) : Option (String × Nat) :=
  match matchWordSuffix "Exception" s with
  | some len => some (String.mk (s.take len), len)
  | none =>
    match matchWordSuffix "Error" s with
    | some len => some (String.mk (s.take len), len)
    | none =>
      match matchWordSuffix "Warning" s with
      | some len => some (String.mk (s.take len), len)
      | none => none

/-- Examples carried by a pattern record: plain strings, or value/count
pairs as produced by `most_common`. -/
inductive PExamples where
  | strs (xs : List String)
  | natCounts (xs : List (Nat × Nat))
  | strCounts (xs : List (String × Nat))
deriving DecidableEq, Repr

/-- One pattern dict of `extract_patterns`. -/
structure PatternRecord where
  type : String
  pattern : String
  count : Nat
  examples : PExamples
deriving DecidableEq, Repr

/-- `list(set(xs))[:5]`, modelled with first-occurrence order (CPython's
set iteration order is hash-dependent and unspecified; no claim below
depends on the order of these example lists). -/
def dedupTake5 (xs : List String) : List String :=
  xs.dedup.take 5

/-- `extract_patterns(log_entries)` from `src/app/pattern_detection.py`:
the six regex extractors run over the messages of *all* given entries
(no level filtering here); extractors with no matches contribute no
record. -/
def extract_patterns (log_entries : List LogEntry) : List PatternRecord :=
  let messages := log_entries.map LogEntry.message
  let urls := (messages.map fun m => findall matchUrl m.data).flatten
  let urlRecs : List PatternRecord :=
    if urls = [] then []
    else [{ type := "url", pattern := "URL pattern", count := urls.length
            examples := .strs (dedupTake5 (urls.map String.mk)) }]
  let ips := (messages.map fun m => findall matchIp m.data).flatten
  let ipRecs : List PatternRecord :=
    if ips = [] then []
    else [{ type := "ip", pattern := "IP address pattern", count := ips.length
            examples := .strs (dedupTake5 (ips.map String.mk)) }]
  let statusCodes := (messages.map fun m => findall matchStatus m.data).flatten
  let statusRecs : List PatternRecord :=
    if statusCodes = [] then []
    else [{ type := "http_status", pattern := "HTTP status codes"
            count := statusCodes.length
            examples := .natCounts (mostCommon (counterList statusCodes) 5) }]
  let sqlErrors := messages.filterMap fun m =>
    if SQL_KEYWORDS.any (fun k => containsSub k.data (pyUpper m.data)) then
      some (m.take 100)
    else none
  let sqlRecs : List PatternRecord :=
    if sqlErrors = [] then []
    else [{ type := "sql", pattern := "SQL-related errors", count := sqlErrors.length
            examples := .strs (dedupTake5 sqlErrors) }]
  let endpoints := (messages.map fun m => findall matchEndpoint m.data).flatten
  let endpointRecs : List PatternRecord :=
    if endpoints = [] then []
    else [{ type := "api_endpoint", pattern := "API endpoints"
            count := endpoints.length
            examples := .strCounts (mostCommon (counterList endpoints) 5) }]
  let exceptions := (messages.map fun m => findall matchException m.data).flatten
  let excRecs : List PatternRecord :=
    if exceptions = [] then []
    else [{ type := "exception", pattern := "Exception types"
            count := exceptions.length
            examples := .strCounts (mostCommon (counterList exceptions) 5) }]
  urlRecs ++ ipRecs ++ statusRecs ++ sqlRecs ++ endpointRecs ++ excRecs

/-! ## pattern_detection.detect_patterns -/

/-- Is an entry at ERROR or WARNING level
(`entry.get("log_level") in ["ERROR", "WARNING"]`)? -/
def isErrWarn (e : LogEntry) : Bool :=
  e.log_level == some "ERROR" || e.log_level == some "WARNING"

/-- The result dict of `detect_patterns`; the early returns for an empty
batch or an empty ERROR/WARNING subset omit the `analyzed_logs` key,
modelled by `none`. -/
structure DetectResult where
  patterns : List PatternRecord
  groups : List SimGroup
  total_patterns : Nat
  total_groups : Nat
  analyzed_logs : Option Nat
deriving DecidableEq, Repr

/-- `detect_patterns(log_entries, min_similarity)`: the public entry
point filters the batch to ERROR/WARNING entries itself, then runs the
extractors and the similarity grouping over the filtered subset. -/
def detect_patterns (log_entries : List LogEntry) (min_similarity : ℚ) :
    DetectResult :=
  if log_entries = [] then ⟨[], [], 0, 0, none⟩
  else
    let ew := log_entries.filter isErrWarn
    if ew = [] then ⟨[], [], 0, 0, none⟩
    else
      let patterns := extract_patterns ew
      let groups := group_similar_errors ew min_similarity
      ⟨patterns, groups, patterns.length, groups.length, some ew.length⟩

/-! ## AnomalyDetector (src/app/ml/anomaly_detection.py)

The sklearn `StandardScaler` + `IsolationForest` fit/predict/score
pipeline is floating-point and is abstracted as a parameter; the guard
logic and the summary construction around it are embedded. -/

/-- One element of the `anomalies` list of `detect_anomalies`. -/
structure AnomalyHit where
  entry : LogEntry
  anomaly_score : ℚ
  index : Nat
deriving DecidableEq, Repr

/-- One element of `top_anomalies`. -/
structure TopAnomaly where
  line_number : Nat
  log_level : Option String
  message : String
  timestamp : Option PyDateTime
  anomaly_score : ℚ
deriving DecidableEq, Repr

/-- The summary dict of `get_anomaly_summary` (the empty and non-empty
cases return dicts with different key sets). -/
inductive AnomalySummary where
  | noAnomalies
  | found (anomaly_count : Nat) (anomaly_percentage : ℚ) (total_entries : Nat)
      (top_anomalies : List TopAnomaly) (recommendation : String)
deriving DecidableEq, Repr

/-- The `has_anomalies` field of the summary dict. -/
def AnomalySummary.has_anomalies : AnomalySummary → Bool
  | .noAnomalies => false
  | .found _ _ _ _ _ => true

/-- The `anomaly_count` field of the summary dict. -/
def AnomalySummary.anomaly_count : AnomalySummary → Nat
  | .noAnomalies => 0
  | .found c _ _ _ _ => c

/-- `AnomalyDetector.detect_anomalies`: below 10 entries no detection is
attempted and the empty list is returned; otherwise the fitted model
(abstracted as `pipeline`, taking the constructor's contamination) yields
the score-sorted anomaly list. -/
def detect_anomalies (pipeline : ℚ → List LogEntry → List AnomalyHit)
    (contamination : ℚ) (log_entries : List LogEntry) : List AnomalyHit :=
  if log_entries.length < 10 then []
  else pipeline contamination log_entries

/-- `AnomalyDetector._get_recommendation`. -/
def get_recommendation (anomaly_count total_count : Nat) : String :=
  let percentage : ℚ := (anomaly_count : ℚ) / total_count * 100
  if 20 < percentage then
    "Yüksek anomali oranı tespit edildi. Sistem genelinde bir sorun olabilir."
  else if 10 < percentage then
    "Orta seviye anomali oranı. Bu logların incelenmesi önerilir."
  else if 5 < percentage then
    "Düşük seviye anomali oranı. Normal sınırlar içinde."
  else
    "Anomali oranı çok düşük. Sistem normal çalışıyor gibi görünüyor."

/-- `AnomalyDetector.get_anomaly_summary`. -/
def get_anomaly_summary (pipeline : ℚ → List LogEntry → List AnomalyHit)
    (contamination : ℚ) (log_entries : List LogEntry) : AnomalySummary :=
  let anomalies := detect_anomalies pipeline contamination log_entries
  if anomalies = [] then .noAnomalies
  else
    .found anomalies.length
      (round2 ((anomalies.length : ℚ) / log_entries.length * 100))
      log_entries.length
      ((anomalies.take 10).map fun a =>
        { line_number := a.entry.line_number
          log_level := a.entry.log_level
          message := a.entry.message.take 200
          timestamp := a.entry.timestamp
          anomaly_score := a.anomaly_score })
      (get_recommendation anomalies.length log_entries.length)

/-! ## Specification-side variants

The following definitions follow the *spec's words* (not the source) and
exist to be compared with the source-derived definitions above. -/

/-- Timestamp extraction as claim C2 words it: the first shape whose
regex matches anywhere wins, and a parse failure of the matched substring
yields no timestamp without trying the remaining shapes. -/
def extractTimestampClaimAux (line : List Char) :
    List (List ShapeTok) → Option PyDateTime
  | [] => none
  | p :: rest =>
    match searchShape p line with
    | none => extractTimestampClaimAux line rest
    | some sub => tryTimestampFormats (stripSquare sub)

/-- Claim C2's version of `extract_timestamp`. -/
def extractTimestampClaim (line : String) : Option PyDateTime :=
  extractTimestampClaimAux line.data TIMESTAMP_PATTERNS

/-- Amended description of `extract_timestamp`: the result is produced by
the first shape (in table order) whose leftmost match, after bracket
stripping, parses under one of the three formats; a matched shape whose
substring fails to parse does not stop the scan. -/
def extractTimestampAmended (line : String) : Option PyDateTime :=
  TIMESTAMP_PATTERNS.findSome? fun p =>
    (searchShape p line.data).bind fun sub => tryTimestampFormats (stripSquare sub)

/-- Message derivation as claim C4 words it: starting from the full line,
remove the *first* occurrence of each timestamp shape (when a timestamp
was found), then the *first* occurrence of each pattern of the detected
level, collapse whitespace, and fall back to the original line when
empty. -/
def messageSpecC4 (line : String) : String :=
  let m1 :=
    if (extract_timestamp line).isSome then
      TIMESTAMP_PATTERNS.foldl (fun m p => subShapeFirst p m) line.data
    else line.data
  let m2 :=
    match detect_log_level line with
    | some lvl => (levelPatterns lvl).foldl (fun m w => subWordFirst w m) m1
    | none => m1
  let m3 := collapseWs m2
  if m3 = [] then line else String.mk m3

/-- Amended description of the message derivation: starting from the
stripped line, remove *every* occurrence of each timestamp shape (when a
timestamp parsed), then every word-bounded occurrence of each pattern of
the detected level (stripping after each substitution, as `re.sub`
results are `.strip()`-ed in the source), collapse whitespace, and fall
back to the stripped line when empty. -/
def derivedMessage (stripped : String) : String :=
  let m1 :=
    if (extract_timestamp stripped).isSome then
      TIMESTAMP_PATTERNS.foldl (fun m p => pyStrip (subShapeAll p m)) stripped.data
    else stripped.data
  let m2 :=
    match detect_log_level stripped with
    | some lvl => (levelPatterns lvl).foldl (fun m w => pyStrip (subWordAll w m)) m1
    | none => m1
  let m3 := collapseWs m2
  if m3 = [] then stripped else String.mk m3

/-! ## Auxiliary specification notions and concrete inputs -/

/-- The member indices of a group. -/
def SimGroup.memIdxs (g : SimGroup) : List Nat :=
  g.members.map Prod.fst

/-- A group is well-seeded: its member list starts with the seed and
every further member sits at a strictly later scan position. -/
def WellSeeded (g : SimGroup) : Prop :=
  ∃ s e t, g.members = (s, e) :: t ∧ ∀ p ∈ t, s < p.1

/-- Does an entry carry one of the four named levels (anything else is
the spec's UNKNOWN)? -/
def isKnownLevel (e : LogEntry) : Bool :=
  e.log_level == some "ERROR" || e.log_level == some "WARNING" ||
    e.log_level == some "INFO" || e.log_level == some "DEBUG"

/-- An ERROR entry with the given message (only the message feeds the
similarity grouping). -/
def errEntry (m : String) : LogEntry :=
  { line_number := 0, log_level := some "ERROR", timestamp := none
    message := m, raw_line := m }

/-- A four-entry ERROR batch whose greedy grouping assigns 3 entries at
threshold 1/2 but 4 entries at threshold 7/10. -/
def thresholdBatch : List LogEntry :=
  [errEntry "a b x", errEntry "a b c", errEntry "a b", errEntry "b c"]

/-- A line whose first timestamp shape matches a malformed substring
while a later shape matches a well-formed one. -/
def fallthroughLine : String := "2024-13-45 99:99:99 15/01/2024 10:30:45"

/-- A line containing two occurrences of the first timestamp shape. -/
def doubleTimestampLine : String :=
  "2024-01-15 10:30:45 2024-01-16 11:30:45 ERROR boom"

/-- A line with leading and trailing whitespace. -/
def paddedLine : String := "  ERROR boom  "

/-- An INFO-level entry whose message contains a URL. -/
def infoUrlEntry : LogEntry :=
  { line_number := 1, log_level := some "INFO", timestamp := none
    message := "http://x", raw_line := "http://x" }

/-! # Helper lemmas -/

theorem string_mk_eq_empty_iff (l : List Char) : String.mk l = "" ↔ l = [] := by
  constructor
  · intro h
    exact congrArg String.data h
  · intro h
    subst h
    rfl

/-- The message field's fallback shape never produces the empty string
when the stripped line is non-empty. -/
theorem fallback_ne_empty (s : String) (m : List Char) (hs : s.data ≠ []) :
    (if m = [] then s else String.mk m) ≠ "" := by
  by_cases hm : m = []
  · rw [if_pos hm]
    intro hx
    exact hs (congrArg String.data hx)
  · rw [if_neg hm]
    intro hx
    exact hm ((string_mk_eq_empty_iff m).mp hx)

/-- Field content of a successfully parsed line: the stripped line was
non-blank, the entry records the given line number, `raw_line` is the
stripped line, and the message is the all-occurrence derivation and is
never empty. -/
theorem parse_line_some_fields {line : String} {i : Nat} {e : LogEntry}
    (h : parse_line line i = some e) :
    pyStrip line.data ≠ [] ∧ e.line_number = i ∧ e.raw_line = pyStripStr line ∧
      e.message = derivedMessage (pyStripStr line) ∧ e.message ≠ "" := by
  unfold parse_line at h
  by_cases hs : pyStrip line.data = []
  · rw [if_pos hs] at h
    cases h
  · rw [if_neg hs] at h
    have he := Option.some.inj h
    subst he
    exact ⟨hs, rfl, rfl, rfl, fallback_ne_empty _ _ hs⟩

/-- The shape loop of `extract_timestamp` is exactly a first-success
search over the shape table. -/
theorem extractTimestampAux_eq_findSome (line : List Char) :
    ∀ ps : List (List ShapeTok),
      extractTimestampAux line ps =
        ps.findSome? fun p =>
          (searchShape p line).bind fun sub => tryTimestampFormats (stripSquare sub)
  | [] => rfl
  | p :: rest => by
    rw [List.findSome?_cons]
    unfold extractTimestampAux
    cases hsp : searchShape p line with
    | none =>
      simpa using extractTimestampAux_eq_findSome line rest
    | some sub =>
      cases hf : tryTimestampFormats (stripSquare sub) with
      | none =>
        simpa [hf] using extractTimestampAux_eq_findSome line rest
      | some dt => simp [hf]

/-- Entries emitted by the parse loop never carry an empty message. -/
theorem parseFileAux_message_ne :
    ∀ (ls : List String) (i : Nat) (e : LogEntry),
      e ∈ parseFileAux ls i → e.message ≠ ""
  | [], _, _, h => absurd h (List.not_mem_nil _)
  | l :: ls, i, e, h => by
    unfold parseFileAux at h
    cases hp : parse_line l i with
    | some e0 =>
      rw [hp] at h
      rcases List.mem_cons.mp h with he | ht
      · subst he
        exact (parse_line_some_fields hp).2.2.2.2
      · exact parseFileAux_message_ne ls (i + 1) e ht
    | none =>
      rw [hp] at h
      exact parseFileAux_message_ne ls (i + 1) e h

/-! # Grouping lemmas (used by claims C1 and C3) -/

/-- Structure of one inner candidate scan: the group gains a (possibly
empty) suffix `new` of accepted candidates, the count grows by exactly
the number of accepted candidates, the processed set gains exactly their
indices, and every accepted candidate came from the scanned list. -/
theorem innerScan_spec (minSim : ℚ) (msg : List Char) :
    ∀ (cands : List (Nat × LogEntry)) (g : SimGroup) (proc : List Nat),
      ∃ new : List (Nat × LogEntry),
        (innerScan minSim msg cands g proc).1.members = g.members ++ new ∧
        (innerScan minSim msg cands g proc).1.count = g.count + new.length ∧
        (∀ k : Nat, k ∈ (innerScan minSim msg cands g proc).2 ↔
          k ∈ proc ∨ ∃ e, (k, e) ∈ new) ∧
        (∀ p ∈ new, p ∈ cands)
  | [], g, proc => ⟨[], by simp [innerScan]⟩
  | (j, e2) :: rest, g, proc => by
    by_cases hj : j ∈ proc
    · obtain ⟨new, h1, h2, h3, h4⟩ := innerScan_spec minSim msg rest g proc
      refine ⟨new, ?_, ?_, ?_, fun p hp => List.mem_cons_of_mem _ (h4 p hp)⟩
      · simpa only [innerScan, if_pos hj] using h1
      · simpa only [innerScan, if_pos hj] using h2
      · simpa only [innerScan, if_pos hj] using h3
    · by_cases hm : pyLower e2.message.data = []
      · obtain ⟨new, h1, h2, h3, h4⟩ := innerScan_spec minSim msg rest g proc
        refine ⟨new, ?_, ?_, ?_, fun p hp => List.mem_cons_of_mem _ (h4 p hp)⟩
        · simpa only [innerScan, if_neg hj, if_pos hm] using h1
        · simpa only [innerScan, if_neg hj, if_pos hm] using h2
        · simpa only [innerScan, if_neg hj, if_pos hm] using h3
      · by_cases hsim : minSim ≤ calculate_similarity msg (pyLower e2.message.data)
        · obtain ⟨new, h1, h2, h3, h4⟩ := innerScan_spec minSim msg rest
            { g with count := g.count + 1, members := g.members ++ [(j, e2)] }
            (j :: proc)
          refine ⟨(j, e2) :: new, ?_, ?_, ?_, ?_⟩
          · simp only [innerScan, if_neg hj, if_neg hm, if_pos hsim]
            rw [h1]
            simp
          · simp only [innerScan, if_neg hj, if_neg hm, if_pos hsim]
            rw [h2]
            simp only [List.length_cons]
            omega
          · intro k
            simp only [innerScan, if_neg hj, if_neg hm, if_pos hsim]
            rw [h3 k]
            simp only [List.mem_cons, Prod.mk.injEq]
            constructor
            · rintro ((hk | hk) | ⟨e, he⟩)
              · exact Or.inr ⟨e2, Or.inl ⟨hk, rfl⟩⟩
              · exact Or.inl hk
              · exact Or.inr ⟨e, Or.inr he⟩
            · rintro (hk | ⟨e, ⟨hk, _⟩ | he⟩)
              · exact Or.inl (Or.inr hk)
              · exact Or.inl (Or.inl hk)
              · exact Or.inr ⟨e, he⟩
          · intro p hp
            rcases List.mem_cons.mp hp with hp' | hp'
            · exact hp' ▸ List.mem_cons_self _ _
            · exact List.mem_cons_of_mem _ (h4 p hp')
        · obtain ⟨new, h1, h2, h3, h4⟩ := innerScan_spec minSim msg rest g proc
          refine ⟨new, ?_, ?_, ?_, fun p hp => List.mem_cons_of_mem _ (h4 p hp)⟩
          · simpa only [innerScan, if_neg hj, if_neg hm, if_neg hsim] using h1
          · simpa only [innerScan, if_neg hj, if_neg hm, if_neg hsim] using h2
          · simpa only [innerScan, if_neg hj, if_neg hm, if_neg hsim] using h3

/-- Indices in an `enumFrom` suffix are at least the start index. -/
theorem fst_le_of_mem_enumFrom :
    ∀ (l : List LogEntry) (n : Nat) (p : Nat × LogEntry),
      p ∈ l.enumFrom n → n ≤ p.1
  | [], _, _, h => absurd h (List.not_mem_nil _)
  | _ :: t, n, p, h => by
    rcases List.mem_cons.mp h with he | ht
    · rw [he]
    · exact Nat.le_of_succ_le (fst_le_of_mem_enumFrom t (n + 1) p ht)

/-- Enumerated entries carry strictly increasing indices. -/
theorem enumFrom_pairwise_lt :
    ∀ (l : List LogEntry) (n : Nat),
      (l.enumFrom n).Pairwise (fun a b => a.1 < b.1)
  | [], _ => List.Pairwise.nil
  | _ :: t, n => by
    refine List.Pairwise.cons ?_ (enumFrom_pairwise_lt t (n + 1))
    intro p hp
    exact Nat.lt_of_lt_of_le (Nat.lt_succ_self n) (fst_le_of_mem_enumFrom t (n + 1) p hp)

/-- Invariant of the outer seed scan: under strictly increasing input
indices, every produced group is well-seeded, and the processed set is
exactly the set of member indices of kept groups (so in particular a
discarded seed is never marked processed). -/
theorem outerScan_spec (minSim : ℚ) :
    ∀ (l : List (Nat × LogEntry)) (groups : List SimGroup) (proc : List Nat),
      l.Pairwise (fun a b => a.1 < b.1) →
      (∀ g ∈ groups, WellSeeded g) →
      (∀ k : Nat, k ∈ proc ↔ ∃ g ∈ groups, k ∈ g.memIdxs) →
      (∀ g ∈ (outerScan minSim l groups proc).1, WellSeeded g) ∧
      (∀ k : Nat, k ∈ (outerScan minSim l groups proc).2 ↔
        ∃ g ∈ (outerScan minSim l groups proc).1, k ∈ g.memIdxs)
  | [], groups, proc, _, hg, hp => by
    constructor <;> simp only [outerScan]
    · exact hg
    · exact hp
  | (i, e1) :: rest, groups, proc, hpair, hg, hp => by
    by_cases hi : i ∈ proc
    · have ih := outerScan_spec minSim rest groups proc hpair.of_cons hg hp
      constructor <;> simp only [outerScan, if_pos hi]
      · exact ih.1
      · exact ih.2
    · by_cases hm : pyLower e1.message.data = []
      · have ih := outerScan_spec minSim rest groups proc hpair.of_cons hg hp
        constructor <;> simp only [outerScan, if_neg hi, if_pos hm]
        · exact ih.1
        · exact ih.2
      · obtain ⟨new, h1, h2, h3, h4⟩ := innerScan_spec minSim (pyLower e1.message.data) rest
          { id := groups.length + 1, representative := e1.message.take 100
            count := 1, log_level := e1.log_level, members := [(i, e1)]
            similarity_score := mkRat 1 1 } proc
        by_cases hc : 1 < (innerScan minSim (pyLower e1.message.data) rest
            { id := groups.length + 1, representative := e1.message.take 100
              count := 1, log_level := e1.log_level, members := [(i, e1)]
              similarity_score := mkRat 1 1 } proc).1.count
        · have hkeep := outerScan_spec minSim rest
            (groups ++ [(innerScan minSim (pyLower e1.message.data) rest
              { id := groups.length + 1, representative := e1.message.take 100
                count := 1, log_level := e1.log_level, members := [(i, e1)]
                similarity_score := mkRat 1 1 } proc).1])
            (i :: (innerScan minSim (pyLower e1.message.data) rest
              { id := groups.length + 1, representative := e1.message.take 100
                count := 1, log_level := e1.log_level, members := [(i, e1)]
                similarity_score := mkRat 1 1 } proc).2)
            hpair.of_cons
            (by
              intro g hgm
              rcases List.mem_append.mp hgm with hgm' | hgm'
              · exact hg g hgm'
              · have hg1 : g = _ := List.mem_singleton.mp hgm'
                refine ⟨i, e1, new, ?_, ?_⟩
                · rw [hg1, h1]
                  rfl
                · intro p hp'
                  exact (List.pairwise_cons.mp hpair).1 p (h4 p hp'))
            (by
              intro k
              constructor
              · intro hk
                rcases List.mem_cons.mp hk with hk | hk
                · refine ⟨_, List.mem_append_right _ (List.mem_singleton_self _), ?_⟩
                  simp only [SimGroup.memIdxs]
                  rw [h1, hk]
                  simp
                · rcases (h3 k).mp hk with hk' | ⟨e, he⟩
                  · obtain ⟨g, hgm, hkm⟩ := (hp k).mp hk'
                    exact ⟨g, List.mem_append_left _ hgm, hkm⟩
                  · refine ⟨_, List.mem_append_right _ (List.mem_singleton_self _), ?_⟩
                    simp only [SimGroup.memIdxs]
                    rw [h1]
                    simp only [List.map_append, List.mem_append]
                    exact Or.inr (List.mem_map.mpr ⟨(k, e), he, rfl⟩)
              · rintro ⟨g, hgm, hkm⟩
                rcases List.mem_append.mp hgm with hgm' | hgm'
                · exact List.mem_cons_of_mem _
                    ((h3 k).mpr (Or.inl ((hp k).mpr ⟨g, hgm', hkm⟩)))
                · have hge := List.mem_singleton.mp hgm'
                  rw [hge] at hkm
                  simp only [SimGroup.memIdxs] at hkm
                  rw [h1] at hkm
                  simp only [List.map_append, List.mem_append, List.map_cons,
                    List.map_nil] at hkm
                  rcases hkm with hkm | hkm
                  · simp only [List.mem_singleton] at hkm
                    exact hkm ▸ List.mem_cons_self _ _
                  · obtain ⟨q, hq, hqf⟩ := List.mem_map.mp hkm
                    refine List.mem_cons_of_mem _ ((h3 k).mpr (Or.inr ⟨q.2, ?_⟩))
                    rw [← hqf]
                    simpa using hq)
          constructor <;> simp only [outerScan, if_neg hi, if_neg hm, if_pos hc]
          · exact hkeep.1
          · exact hkeep.2
        · have hnew : new = [] := by
            rw [h2] at hc
            dsimp only at hc
            refine List.length_eq_zero.mp ?_
            omega
          have hproc : ∀ k : Nat, k ∈ (innerScan minSim (pyLower e1.message.data) rest
              { id := groups.length + 1, representative := e1.message.take 100
                count := 1, log_level := e1.log_level, members := [(i, e1)]
                similarity_score := mkRat 1 1 } proc).2 ↔ ∃ g ∈ groups, k ∈ g.memIdxs := by
            intro k
            rw [h3 k, hnew]
            simp [hp k]
          have ih := outerScan_spec minSim rest groups _ hpair.of_cons hg hproc
          constructor <;> simp only [outerScan, if_neg hi, if_neg hm, if_neg hc]
          · exact ih.1
          · exact ih.2

/-- Membership is preserved downwards by the stable insertion. -/
theorem mem_of_mem_insertByCountDesc {g h : SimGroup} :
    ∀ {l : List SimGroup}, g ∈ insertByCountDesc h l → g = h ∨ g ∈ l
  | [], hm => by simpa [insertByCountDesc] using hm
  | x :: t, hm => by
    by_cases hc : x.count ≤ h.count
    · simp only [insertByCountDesc, if_pos hc] at hm
      rcases List.mem_cons.mp hm with h1 | h1
      · exact Or.inl h1
      · exact Or.inr h1
    · simp only [insertByCountDesc, if_neg hc] at hm
      rcases List.mem_cons.mp hm with h1 | h1
      · exact Or.inr (h1 ▸ List.mem_cons_self _ _)
      · rcases mem_of_mem_insertByCountDesc h1 with h2 | h2
        · exact Or.inl h2
        · exact Or.inr (List.mem_cons_of_mem _ h2)

/-- Membership is preserved downwards by the stable sort. -/
theorem mem_of_mem_sortByCountDesc {g : SimGroup} :
    ∀ {l : List SimGroup}, g ∈ sortByCountDesc l → g ∈ l
  | [], hm => by simp [sortByCountDesc] at hm
  | x :: t, hm => by
    rcases mem_of_mem_insertByCountDesc (l := sortByCountDesc t) hm with h1 | h1
    · exact h1 ▸ List.mem_cons_self _ _
    · exact List.mem_cons_of_mem _ (mem_of_mem_sortByCountDesc h1)

/-- Every group returned by `group_similar_errors` is well-seeded: its
member list is the seed followed by members at strictly later scan
positions. -/
theorem group_similar_errors_wellSeeded (es : List LogEntry) (τ : ℚ) :
    ∀ g ∈ group_similar_errors es τ, WellSeeded g := by
  intro g hgm
  unfold group_similar_errors at hgm
  by_cases h : es = []
  · rw [if_pos h] at hgm
    exact absurd hgm (List.not_mem_nil _)
  · rw [if_neg h] at hgm
    have hmem : g ∈ (outerScan τ (enumEntries es) [] []).1 :=
      mem_of_mem_sortByCountDesc (List.mem_of_mem_take hgm)
    exact (outerScan_spec τ (enumEntries es) [] []
      (enumFrom_pairwise_lt es 0) (by simp) (by simp)).1 g hmem

/-! # Claim C1 — grouping totals are not monotone in the threshold -/

set_option maxRecDepth 100000 in
/-- C1, counterexample: on a four-entry ERROR batch, raising
`min_similarity` from 1/2 to 7/10 *increases* the total number of
entries assigned to groups from 3 to 4 (at the looser threshold the
first seed greedily absorbs two entries and strands the fourth, while at
the stricter threshold the batch splits into two pairs), refuting
monotonicity of the total. -/
theorem C1_counterexample :
    ((0 : ℚ) ≤ mkRat 1 2 ∧ mkRat 1 2 ≤ mkRat 7 10 ∧ mkRat 7 10 ≤ mkRat 1 1) ∧
      totalGrouped thresholdBatch (mkRat 1 2) = 3 ∧
      totalGrouped thresholdBatch (mkRat 7 10) = 4 ∧
      ¬ totalGrouped thresholdBatch (mkRat 7 10) ≤
          totalGrouped thresholdBatch (mkRat 1 2) := by
  decide

/-- The inner candidate scan is monotone in the threshold: starting two
scans from states whose processed sets agree on the candidate indices
and whose group members nest, every member collected at the stricter
threshold is also collected at the looser one. -/
theorem innerScan_members_mono (t1 t2 : ℚ) (h12 : t1 ≤ t2) (msg : List Char) :
    ∀ (cands : List (Nat × LogEntry)) (g1 g2 : SimGroup) (proc1 proc2 : List Nat),
      cands.Pairwise (fun a b => a.1 ≠ b.1) →
      (∀ k ∈ cands.map Prod.fst, (k ∈ proc1 ↔ k ∈ proc2)) →
      (∀ p, p ∈ g2.members → p ∈ g1.members) →
      ∀ p, p ∈ (innerScan t2 msg cands g2 proc2).1.members →
        p ∈ (innerScan t1 msg cands g1 proc1).1.members
  | [], g1, g2, proc1, proc2, _, _, hsub, p, hp => by
    simp only [innerScan] at hp ⊢
    exact hsub p hp
  | (j, e2) :: rest, g1, g2, proc1, proc2, hpair, hagree, hsub, p, hp => by
    have hj : j ∈ proc1 ↔ j ∈ proc2 := hagree j (by simp)
    have hagree' : ∀ k ∈ rest.map Prod.fst, (k ∈ proc1 ↔ k ∈ proc2) :=
      fun k hk => hagree k (by simp [hk])
    by_cases h2 : j ∈ proc2
    · have h1 : j ∈ proc1 := hj.mpr h2
      simp only [innerScan, if_pos h1, if_pos h2] at hp ⊢
      exact innerScan_members_mono t1 t2 h12 msg rest g1 g2 proc1 proc2
        hpair.of_cons hagree' hsub p hp
    · have h1 : j ∉ proc1 := fun hx => h2 (hj.mp hx)
      by_cases hm : pyLower e2.message.data = []
      · simp only [innerScan, if_neg h1, if_neg h2, if_pos hm] at hp ⊢
        exact innerScan_members_mono t1 t2 h12 msg rest g1 g2 proc1 proc2
          hpair.of_cons hagree' hsub p hp
      · by_cases hs2 : t2 ≤ calculate_similarity msg (pyLower e2.message.data)
        · have hs1 : t1 ≤ calculate_similarity msg (pyLower e2.message.data) :=
            le_trans h12 hs2
          simp only [innerScan, if_neg h1, if_neg h2, if_neg hm, if_pos hs1,
            if_pos hs2] at hp ⊢
          refine innerScan_members_mono t1 t2 h12 msg rest _ _ _ _
            hpair.of_cons ?_ ?_ p hp
          · intro k hk
            simp only [List.mem_cons]
            exact or_congr_right (hagree' k hk)
          · intro q hq
            rcases List.mem_append.mp hq with hq' | hq'
            · exact List.mem_append_left _ (hsub q hq')
            · exact List.mem_append_right _ hq'
        · by_cases hs1 : t1 ≤ calculate_similarity msg (pyLower e2.message.data)
          · simp only [innerScan, if_neg h1, if_neg h2, if_neg hm, if_pos hs1,
              if_neg hs2] at hp ⊢
            refine innerScan_members_mono t1 t2 h12 msg rest _ g2 _ proc2
              hpair.of_cons ?_ ?_ p hp
            · intro k hk
              have hkj : j ≠ k := by
                obtain ⟨q, hq, hqk⟩ := List.mem_map.mp hk
                exact hqk ▸ (List.pairwise_cons.mp hpair).1 q hq
              simp only [List.mem_cons]
              rw [hagree' k hk]
              constructor
              · rintro (hx | hx)
                · exact absurd hx.symm hkj
                · exact hx
              · exact Or.inr
            · intro q hq
              exact List.mem_append_left _ (hsub q hq)
          · simp only [innerScan, if_neg h1, if_neg h2, if_neg hm, if_neg hs1,
              if_neg hs2] at hp ⊢
            exact innerScan_members_mono t1 t2 h12 msg rest g1 g2 proc1 proc2
              hpair.of_cons hagree' hsub p hp

/-- C1, amended: the monotonicity that does hold is local, not global —
for a fixed seed, candidate list and processed set, every candidate the
inner scan absorbs at the stricter threshold `t2` is also absorbed at
the looser threshold `t1 ≤ t2` (the pairwise similarity gate is
monotone); the *total* over the whole greedy pass is not monotone, as
`C1_counterexample` shows. -/
theorem C1_inner_scan_mono (t1 t2 : ℚ) (msg : List Char)
    (cands : List (Nat × LogEntry)) (g : SimGroup) (proc : List Nat)
    (h12 : t1 ≤ t2) (hpair : cands.Pairwise (fun a b => a.1 ≠ b.1)) :
    ∀ p ∈ (innerScan t2 msg cands g proc).1.members,
      p ∈ (innerScan t1 msg cands g proc).1.members :=
  fun p hp => innerScan_members_mono t1 t2 h12 msg cands g g proc proc hpair
    (fun _ _ => Iff.rfl) (fun _ h => h) p hp

set_option maxRecDepth 10000 in
/-- C1 witness: a singleton candidate identical to the seed message is
absorbed at 7/10, hence also at 1/2. -/
theorem C1_inner_scan_mono_witness :
    (1, errEntry "a b") ∈ (innerScan (mkRat 1 2) ("a b".data)
      [(1, errEntry "a b")]
      { id := 1, representative := "a b", count := 1, log_level := some "ERROR"
        members := [(0, errEntry "a b")], similarity_score := mkRat 1 1 }
      []).1.members :=
  C1_inner_scan_mono (mkRat 1 2) (mkRat 7 10) ("a b".data) [(1, errEntry "a b")]
    { id := 1, representative := "a b", count := 1, log_level := some "ERROR"
      members := [(0, errEntry "a b")], similarity_score := mkRat 1 1 }
    [] (by decide) (by simp) (1, errEntry "a b") (by decide)

/-! # Claim C3 — a discarded seed is never absorbed by a later group -/

/-- C3, counterexample (negation of the claimed existential): in *no*
batch, at *no* threshold, does any entry appear as a member of a group
seeded at a later scan position — each group's members all sit strictly
after its seed, so the claimed late absorption of a failed seed is
impossible. -/
theorem C3_counterexample :
    ¬ ∃ (es : List LogEntry) (τ : ℚ) (g : SimGroup) (p : Nat × LogEntry),
        g ∈ group_similar_errors es τ ∧ p ∈ g.members ∧ p.1 < g.seedIdx := by
  rintro ⟨es, τ, g, p, hg, hp, hlt⟩
  obtain ⟨s, e, t, hmem, hafter⟩ := group_similar_errors_wellSeeded es τ g hg
  have hseed : g.seedIdx = s := by
    rw [SimGroup.seedIdx, hmem]
  rw [hmem] at hp
  rw [hseed] at hlt
  rcases List.mem_cons.mp hp with he | ht
  · rw [he] at hlt
    exact absurd hlt (lt_irrefl s)
  · exact absurd hlt (not_lt_of_gt (hafter p ht))

/-- C3, amended: a seed whose candidate scan gathers fewer than two
total members is indeed discarded without being marked processed — the
processed set after the whole scan is exactly the member indices of the
kept groups — but such an entry can never be absorbed later: every
member of every returned group sits at a scan position no earlier than
its seed (strictly later except for the seed itself), because each seed
only scans forward. -/
theorem C3_discarded_seed_not_processed (es : List LogEntry) (τ : ℚ) :
    (∀ g ∈ group_similar_errors es τ, ∀ p ∈ g.members, g.seedIdx ≤ p.1) ∧
      (∀ k : Nat, k ∈ (outerScan τ (enumEntries es) [] []).2 ↔
        ∃ g ∈ (outerScan τ (enumEntries es) [] []).1, k ∈ g.memIdxs) := by
  constructor
  · intro g hg p hp
    obtain ⟨s, e, t, hmem, hafter⟩ := group_similar_errors_wellSeeded es τ g hg
    have hseed : g.seedIdx = s := by
      rw [SimGroup.seedIdx, hmem]
    rw [hmem] at hp
    rw [hseed]
    rcases List.mem_cons.mp hp with he | ht
    · rw [he]
    · exact Nat.le_of_lt (hafter p ht)
  · exact (outerScan_spec τ (enumEntries es) [] []
      (enumFrom_pairwise_lt es 0) (by simp) (by simp)).2

set_option maxRecDepth 100000 in
/-- C3 witness: the seed-position bound evaluated on the kept group of
the four-entry batch at threshold 1/2. -/
theorem C3_discarded_seed_not_processed_witness :
    ({ id := 1, representative := "a b x", count := 3
       log_level := some "ERROR"
       members := [(0, errEntry "a b x"), (1, errEntry "a b c"), (2, errEntry "a b")]
       similarity_score := mkRat 1 1 } : SimGroup).seedIdx ≤
      ((1 : Nat), errEntry "a b c").1 :=
  (C3_discarded_seed_not_processed thresholdBatch (mkRat 1 2)).1
    _ (by decide) (1, errEntry "a b c") (by decide)

/-! # Claim C2 — timestamp extraction falls through on parse failure -/

/-- C2, counterexample: on a line whose *first* matching shape holds a
malformed timestamp, the code does not report "no timestamp" — it falls
through and parses the later `DD/MM/YYYY` match, contradicting the claim
(formalised alongside as `extractTimestampClaim`, which stops at the
first regex match). -/
theorem C2_counterexample :
    extract_timestamp fallthroughLine = some ⟨2024, 1, 15, 10, 30, 45⟩ ∧
      extractTimestampClaim fallthroughLine = none := by
  constructor
  · rfl
  · rfl

/-- C2, amended: shapes are tried in order and the result is the first
shape whose leftmost match parses under one of the three formats; a
matched-but-unparsable substring does not stop the scan (it falls through
to the remaining shapes), and if no matched shape parses, no timestamp is
reported. -/
theorem C2_fallthrough_to_later_shapes (line : String) :
    extract_timestamp line = extractTimestampAmended line :=
  extractTimestampAux_eq_findSome line.data TIMESTAMP_PATTERNS

/-! # Claim C4 — message derivation removes all occurrences, not the first -/

/-- C4, counterexample: with two occurrences of the first timestamp
shape in the line, the code's message drops both (it is `"boom"`), while
the claimed first-occurrence derivation keeps the second timestamp. -/
theorem C4_counterexample :
    (parse_line doubleTimestampLine 1).map LogEntry.message = some "boom" ∧
      messageSpecC4 doubleTimestampLine = "2024-01-16 11:30:45 boom" ∧
      ("boom" : String) ≠ "2024-01-16 11:30:45 boom" := by
  refine ⟨rfl, rfl, ?_⟩
  decide

/-- C4, amended: for every parsed line the message is derived from the
stripped line by removing *every* occurrence of each timestamp shape
(when a timestamp parsed) and then every word-bounded occurrence of each
pattern of the detected level, collapsing whitespace, with the stripped
line as fallback when the result is empty. -/
theorem C4_message_all_occurrences (line : String) (i : Nat) (e : LogEntry)
    (h : parse_line line i = some e) :
    e.message = derivedMessage (pyStripStr line) :=
  (parse_line_some_fields h).2.2.2.1

/-- C4 witness: the amended derivation evaluated on the double-timestamp
line. -/
theorem C4_message_all_occurrences_witness :
    ({ line_number := 1, log_level := some "ERROR"
       timestamp := some ⟨2024, 1, 15, 10, 30, 45⟩
       message := "boom", raw_line := doubleTimestampLine } : LogEntry).message =
      derivedMessage (pyStripStr doubleTimestampLine) :=
  C4_message_all_occurrences doubleTimestampLine 1 _ rfl

/-! # Claim C5 — raw_line is the stripped line, not the untouched text -/

/-- C5, counterexample: a line with surrounding whitespace is stored in
`raw_line` stripped, not as the original text. -/
theorem C5_counterexample :
    (parse_line paddedLine 1).map LogEntry.raw_line = some "ERROR boom" ∧
      ("ERROR boom" : String) ≠ paddedLine := by
  refine ⟨rfl, ?_⟩
  decide

/-- C5, amended: for every entry emitted by parsing, `raw_line` equals
the `strip()`-ed text of the source line (leading and trailing
whitespace removed), not the untouched original. -/
theorem C5_raw_line_stripped (line : String) (i : Nat) (e : LogEntry)
    (h : parse_line line i = some e) : e.raw_line = pyStripStr line :=
  (parse_line_some_fields h).2.2.1

/-- C5 witness: the padded line evaluated concretely. -/
theorem C5_raw_line_stripped_witness :
    ({ line_number := 1, log_level := some "ERROR", timestamp := none
       message := "boom", raw_line := "ERROR boom" } : LogEntry).raw_line =
      pyStripStr paddedLine :=
  C5_raw_line_stripped paddedLine 1 _ rfl

/-! # Faithfulness of the combined similarity fraction -/

/-- The common-denominator fraction equals the weighted sum of the two
sub-fractions (`0.4 = 2/5`, `0.6 = 3/5`). -/
theorem mkRat_weights (i u m len : ℕ) (hu : u ≠ 0) (hlen : len ≠ 0) :
    mkRat (2 * i * len + 6 * m * u) (5 * u * len) =
      (i : ℚ) / u * (2 / 5) + mkRat (2 * m) len * (3 / 5) := by
  rw [Rat.mkRat_eq_div, Rat.mkRat_eq_div]
  have hu' : (u : ℚ) ≠ 0 := Nat.cast_ne_zero.mpr hu
  have hlen' : (len : ℚ) ≠ 0 := Nat.cast_ne_zero.mpr hlen
  push_cast
  field_simp
  ring

/-- The single-fraction form of `calculate_similarity` equals the
source's weighted sum `jaccard * 0.4 + sequence_ratio * 0.6` whenever
the guards pass. -/
theorem calculate_similarity_formula (str1 str2 : List Char)
    (h1 : str1 ≠ []) (h2 : str2 ≠ [])
    (hw1 : (pySplit str1).dedup ≠ []) (hw2 : (pySplit str2).dedup ≠ []) :
    calculate_similarity str1 str2 =
      (((pySplit str1).dedup.filter fun w => (pySplit str2).dedup.contains w).length : ℚ) /
          ((((pySplit str1).dedup ++
            (pySplit str2).dedup.filter fun w => !(pySplit str1).dedup.contains w).length : ℚ)) *
          (2 / 5) +
        sequenceRatio str1 str2 * (3 / 5) := by
  have hL : str1.length + str2.length ≠ 0 := by
    have := List.length_pos.mpr h1
    omega
  have hU : (((pySplit str1).dedup ++
      (pySplit str2).dedup.filter fun w => !(pySplit str1).dedup.contains w).length) ≠ 0 := by
    rw [List.length_append]
    have := List.length_pos.mpr hw1
    omega
  unfold calculate_similarity sequenceRatio
  rw [if_neg (by simp [h1, h2]), if_neg (by simp [hw1, hw2]), if_neg hL]
  exact mkRat_weights _ _ _ _ hU hL

/-! # Claim C7 — small batches yield a well-formed empty anomaly summary -/

/-- C7: for every abstracted model pipeline, every contamination value
and every batch of fewer than 10 entries, the anomaly summary is the
empty-summary dict with `has_anomalies = False` and `anomaly_count = 0`;
the fitted model is never invoked. -/
theorem C7_small_batch_no_anomalies
    (pipeline : ℚ → List LogEntry → List AnomalyHit) (contamination : ℚ)
    (log_entries : List LogEntry) (h : log_entries.length < 10) :
    get_anomaly_summary pipeline contamination log_entries = .noAnomalies ∧
      (get_anomaly_summary pipeline contamination log_entries).has_anomalies = false ∧
      (get_anomaly_summary pipeline contamination log_entries).anomaly_count = 0 := by
  have hd : detect_anomalies pipeline contamination log_entries = [] := by
    unfold detect_anomalies
    rw [if_pos h]
  unfold get_anomaly_summary
  rw [hd]
  exact ⟨rfl, rfl, rfl⟩

/-- C7 witness: a three-entry batch with an arbitrary pipeline and
contamination 3/10. -/
theorem C7_small_batch_no_anomalies_witness :
    get_anomaly_summary (fun _ _ => []) (3 / 10)
        [errEntry "a", errEntry "b", errEntry "c"] = .noAnomalies ∧
      (get_anomaly_summary (fun _ _ => []) (3 / 10)
        [errEntry "a", errEntry "b", errEntry "c"]).has_anomalies = false ∧
      (get_anomaly_summary (fun _ _ => []) (3 / 10)
        [errEntry "a", errEntry "b", errEntry "c"]).anomaly_count = 0 :=
  C7_small_batch_no_anomalies (fun _ _ => []) (3 / 10) _ (by decide)

/-! # Claim C10 — parsed entries never carry an empty message -/

/-- C10: every `LogEntry` produced by `parse_file` has a non-empty
message: emitted entries come only from lines non-empty after stripping,
and the message falls back to that stripped line when token removal
empties it. -/
theorem C10_message_nonempty (content : String) (e : LogEntry)
    (h : e ∈ parse_file content) : e.message ≠ "" :=
  parseFileAux_message_ne _ 1 e h

/-- C10 witness: the single entry of `parse_file "\nERROR boom"`. -/
theorem C10_message_nonempty_witness :
    ({ line_number := 2, log_level := some "ERROR", timestamp := none
       message := "boom", raw_line := "ERROR boom" } : LogEntry).message ≠ "" :=
  C10_message_nonempty "\nERROR boom" _ (by decide)

/-! # Claim C6 — blank lines are skipped, line numbers are true positions -/

/-- Every emitted entry came from the line at its (0-based shifted)
position in the split, parsed with that position. -/
theorem parseFileAux_mem_spec :
    ∀ (ls : List String) (i : Nat) (e : LogEntry),
      e ∈ parseFileAux ls i →
      ∃ k l, ls.get? k = some l ∧ parse_line l (i + k) = some e
  | [], _, _, h => absurd h (List.not_mem_nil _)
  | l :: ls, i, e, h => by
    unfold parseFileAux at h
    cases hp : parse_line l i with
    | some e0 =>
      rw [hp] at h
      rcases List.mem_cons.mp h with he | ht
      · refine ⟨0, l, rfl, ?_⟩
        rw [Nat.add_zero, hp, he]
      · obtain ⟨k, l', hg, hpl⟩ := parseFileAux_mem_spec ls (i + 1) e ht
        refine ⟨k + 1, l', by simpa using hg, ?_⟩
        rw [show i + (k + 1) = i + 1 + k by omega]
        exact hpl
    | none =>
      rw [hp] at h
      obtain ⟨k, l', hg, hpl⟩ := parseFileAux_mem_spec ls (i + 1) e h
      refine ⟨k + 1, l', by simpa using hg, ?_⟩
      rw [show i + (k + 1) = i + 1 + k by omega]
      exact hpl

/-- Entries emitted by the loop carry line numbers at least the start
index. -/
theorem parseFileAux_line_lb :
    ∀ (ls : List String) (i : Nat) (e : LogEntry),
      e ∈ parseFileAux ls i → i ≤ e.line_number
  | [], _, _, h => absurd h (List.not_mem_nil _)
  | l :: ls, i, e, h => by
    unfold parseFileAux at h
    cases hp : parse_line l i with
    | some e0 =>
      rw [hp] at h
      rcases List.mem_cons.mp h with he | ht
      · rw [he, (parse_line_some_fields hp).2.1]
      · exact Nat.le_of_succ_le (parseFileAux_line_lb ls (i + 1) e ht)
    | none =>
      rw [hp] at h
      exact Nat.le_of_succ_le (parseFileAux_line_lb ls (i + 1) e h)

/-- Line numbers of emitted entries are strictly increasing. -/
theorem parseFileAux_pairwise :
    ∀ (ls : List String) (i : Nat),
      (parseFileAux ls i).Pairwise fun a b => a.line_number < b.line_number
  | [], _ => List.Pairwise.nil
  | l :: ls, i => by
    unfold parseFileAux
    cases hp : parse_line l i with
    | some e0 =>
      refine List.Pairwise.cons ?_ (parseFileAux_pairwise ls (i + 1))
      intro e he
      have hlb : i + 1 ≤ e.line_number := parseFileAux_line_lb ls (i + 1) e he
      have he0 : e0.line_number = i := (parse_line_some_fields hp).2.1
      omega
    | none => exact parseFileAux_pairwise ls (i + 1)

/-- C6: `parse("")` and `parse("\n\n\n")` yield no entries; blank lines
never produce an entry but numbering still reflects true file position
(`"\nERROR boom"` yields one entry at line 2); every emitted entry is
the parse of the non-blank line at its 1-based position; and line
numbers are strictly increasing within one parse. -/
theorem C6_line_numbering :
    parse_file "" = [] ∧
      parse_file "\n\n\n" = [] ∧
      parse_file "\nERROR boom" =
        [{ line_number := 2, log_level := some "ERROR", timestamp := none
           message := "boom", raw_line := "ERROR boom" }] ∧
      (∀ (content : String), ∀ e ∈ parse_file content,
        ∃ l, (splitLines content).get? (e.line_number - 1) = some l ∧
          pyStrip l.data ≠ [] ∧ parse_line l e.line_number = some e) ∧
      (∀ content : String,
        (parse_file content).Pairwise fun a b => a.line_number < b.line_number) := by
  refine ⟨rfl, rfl, rfl, ?_, ?_⟩
  · intro content e he
    obtain ⟨k, l, hg, hpl⟩ := parseFileAux_mem_spec (splitLines content) 1 e he
    have hnum : e.line_number = 1 + k := (parse_line_some_fields hpl).2.1
    refine ⟨l, ?_, (parse_line_some_fields hpl).1, ?_⟩
    · rw [hnum, show 1 + k - 1 = k by omega]
      exact hg
    · rw [hnum]
      exact hpl
  · intro content
    exact parseFileAux_pairwise (splitLines content) 1

/-- C6 witness: the position property evaluated on `"\nERROR boom"`. -/
theorem C6_line_numbering_witness :
    ∃ l, (splitLines "\nERROR boom").get?
        (({ line_number := 2, log_level := some "ERROR", timestamp := none
            message := "boom", raw_line := "ERROR boom" } : LogEntry).line_number - 1) =
          some l ∧
      pyStrip l.data ≠ [] ∧
      parse_line l
          ({ line_number := 2, log_level := some "ERROR", timestamp := none
             message := "boom", raw_line := "ERROR boom" } : LogEntry).line_number =
        some { line_number := 2, log_level := some "ERROR", timestamp := none
               message := "boom", raw_line := "ERROR boom" } :=
  C6_line_numbering.2.2.2.1 "\nERROR boom" _ (by decide)

/-! # Claim C8 — level counts sum to at most the total -/

/-- Per-entry indicator identity: the four level indicators sum to the
known-level indicator (the four levels are mutually exclusive values). -/
theorem level_indicator_sum (e : LogEntry) :
    ((if e.log_level == some "ERROR" then 1 else 0) +
        (if e.log_level == some "WARNING" then 1 else 0) +
        (if e.log_level == some "INFO" then 1 else 0) +
        (if e.log_level == some "DEBUG" then 1 else 0) : Nat) =
      if isKnownLevel e then 1 else 0 := by
  by_cases h1 : e.log_level = some "ERROR"
  · unfold isKnownLevel
    rw [h1]
    decide
  · by_cases h2 : e.log_level = some "WARNING"
    · unfold isKnownLevel
      rw [h2]
      decide
    · by_cases h3 : e.log_level = some "INFO"
      · unfold isKnownLevel
        rw [h3]
        decide
      · by_cases h4 : e.log_level = some "DEBUG"
        · unfold isKnownLevel
          rw [h4]
          decide
        · simp [isKnownLevel, h1, h2, h3, h4]

/-- The four level counts sum to the count of known-level entries. -/
theorem countP_levels_eq (entries : List LogEntry) :
    entries.countP (fun e => e.log_level == some "ERROR") +
        entries.countP (fun e => e.log_level == some "WARNING") +
        entries.countP (fun e => e.log_level == some "INFO") +
        entries.countP (fun e => e.log_level == some "DEBUG") =
      entries.countP isKnownLevel := by
  induction entries with
  | nil => rfl
  | cons a t ih =>
    simp only [List.countP_cons]
    have := level_indicator_sum a
    omega

/-- C8: over every entry sequence the four named level counts sum to at
most the total, with equality exactly when every entry's level is one of
the four (no UNKNOWN); the empty sequence yields the all-zero summary
rather than an error. -/
theorem C8_count_bound (entries : List LogEntry) :
    ((analyze entries).error_count + (analyze entries).warning_count +
        (analyze entries).info_count + (analyze entries).debug_count ≤
      (analyze entries).total_entries) ∧
      ((analyze entries).error_count + (analyze entries).warning_count +
          (analyze entries).info_count + (analyze entries).debug_count =
        (analyze entries).total_entries ↔ ∀ e ∈ entries, isKnownLevel e) ∧
      analyze [] = empty_analysis := by
  by_cases h : entries = []
  · subst h
    refine ⟨?_, ?_, rfl⟩ <;> simp [analyze, empty_analysis]
  · have hana : analyze entries =
        { total_entries := entries.length
          error_count := entries.countP fun e => e.log_level == some "ERROR"
          warning_count := entries.countP fun e => e.log_level == some "WARNING"
          info_count := entries.countP fun e => e.log_level == some "INFO"
          debug_count := entries.countP fun e => e.log_level == some "DEBUG"
          top_errors := get_top_messages
            ((entries.filter fun e => e.log_level == some "ERROR").map LogEntry.message) 10
          top_warnings := get_top_messages
            ((entries.filter fun e => e.log_level == some "WARNING").map LogEntry.message) 10
          time_distribution := get_time_distribution entries } := by
      unfold analyze
      rw [if_neg h]
    rw [hana]
    dsimp only
    rw [countP_levels_eq]
    refine ⟨List.countP_le_length _, List.countP_eq_length, rfl⟩

/-! # Claim C9 — detect_patterns pre-filters by level itself -/

/-- C9, counterexample: a single INFO entry whose message holds a URL
produces *no* pattern record through the public `detect_patterns` entry
point, although the extractor itself would record the URL — so entries
outside ERROR/WARNING are not considered by the extractors, and the
filtering happens inside `detect_patterns`, not in the caller. -/
theorem C9_counterexample :
    (detect_patterns [infoUrlEntry] (mkRat 7 10)).patterns = [] ∧
      extract_patterns [infoUrlEntry] =
        [{ type := "url", pattern := "URL pattern", count := 1
           examples := .strs ["http://x"] }] ∧
      (detect_patterns [infoUrlEntry] (mkRat 7 10)).patterns ≠
        extract_patterns [infoUrlEntry] := by
  refine ⟨rfl, rfl, ?_⟩
  decide

/-- C9, amended: `detect_patterns` itself filters the batch to
ERROR/WARNING entries and hands only the filtered subset to the six
extractors and the grouper; `extract_patterns` does not inspect levels —
it depends only on the messages of the entries it receives. -/
theorem C9_prefilter_inside_detect (entries : List LogEntry) (τ : ℚ) :
    (detect_patterns entries τ).patterns =
        extract_patterns (entries.filter isErrWarn) ∧
      (detect_patterns entries τ).groups =
        group_similar_errors (entries.filter isErrWarn) τ ∧
      (∀ es1 es2 : List LogEntry,
        es1.map LogEntry.message = es2.map LogEntry.message →
          extract_patterns es1 = extract_patterns es2) := by
  refine ⟨?_, ?_, ?_⟩
  · by_cases h : entries = []
    · subst h
      rfl
    · by_cases hf : entries.filter isErrWarn = []
      · simp only [detect_patterns, if_neg h, hf]
        rfl
      · simp only [detect_patterns, if_neg h, if_neg hf]
  · by_cases h : entries = []
    · subst h
      rfl
    · by_cases hf : entries.filter isErrWarn = []
      · simp only [detect_patterns, if_neg h, hf]
        rfl
      · simp only [detect_patterns, if_neg h, if_neg hf]
  · intro es1 es2 hmsg
    unfold extract_patterns
    rw [hmsg]

/-- C9 witness: the message-only dependence applied to the INFO URL
entry and an ERROR entry with the same message. -/
theorem C9_prefilter_inside_detect_witness :
    extract_patterns [infoUrlEntry] =
      extract_patterns
        [{ line_number := 9, log_level := some "ERROR"
           timestamp := none, message := "http://x", raw_line := "other" }] :=
  (C9_prefilter_inside_detect [infoUrlEntry] (mkRat 7 10)).2.2 _ _ (by decide)

end LogAnalyzer
